import Mathlib

/-!
Verification of the natural-language specification of
`typescript-simple-loader` against a shallow embedding of
`src/typescript-simple-loader.ts`.

The embedding models:
- the per-session virtual file registry `files : ts.Map<{version, text}>`
  (a JavaScript object keyed by file path) as an association list
  `FilesMap = List (String × FileRecord)` with JavaScript object
  semantics: key lookup, assignment (overwrite in place, else append)
  and `delete`;
- the file system as a total map `Disk = String → Option String`
  (both `statSync(...).isFile()` and `readFileSync` are read off it:
  `fileExists p` is `(disk p).isSome`, a successful `readFileSync p`
  is `(disk p).get`);
- the wrapped TypeScript language service and `JSON.parse` as opaque
  function parameters, since the compiler package is an external
  collaborator of the repository.
-/

namespace TsLoader

/-- A registry entry: the `{ version: number, text: string }` value stored
in the `files` map (type `FilesMap` in the source, line 38). -/
structure FileRecord where
  version : Nat
  text : String
deriving Repr, DecidableEq

/-- JavaScript-object lookup: first (and, under object semantics, only)
binding of a key. -/
def lookupKey {α : Type} : List (String × α) → String → Option α
  | [], _ => none
  | (k, v) :: rest, key => if k = key then some v else lookupKey rest key

/-- JavaScript-object assignment `m[key] = v`: overwrite the binding in
place when the key is present, otherwise append a new binding. -/
def setKey {α : Type} : List (String × α) → String → α → List (String × α)
  | [], key, v => [(key, v)]
  | (k, w) :: rest, key, v =>
      if k = key then (key, v) :: rest else (k, w) :: setKey rest key v

/-- JavaScript `delete m[key]`: remove the binding for the key. -/
def deleteKey {α : Type} : List (String × α) → String → List (String × α)
  | [], _ => []
  | (k, w) :: rest, key =>
      if k = key then deleteKey rest key else (k, w) :: deleteKey rest key

/-- Number of bindings a key has in the map (JavaScript objects keep it at
most 1; we prove the model does too where the claims need it). -/
def countKey {α : Type} : List (String × α) → String → Nat
  | [], _ => 0
  | (k, _) :: rest, key => (if k = key then 1 else 0) + countKey rest key

theorem lookupKey_setKey_self {α : Type} (m : List (String × α)) (k : String) (v : α) :
    lookupKey (setKey m k v) k = some v := by
  induction m with
  | nil => simp [setKey, lookupKey]
  | cons hd tl ih =>
      obtain ⟨k', w⟩ := hd
      by_cases h : k' = k <;> simp [setKey, lookupKey, h, ih]

theorem lookupKey_setKey_ne {α : Type} (m : List (String × α)) (k key : String) (v : α)
    (h : key ≠ k) : lookupKey (setKey m k v) key = lookupKey m key := by
  induction m with
  | nil => simp [setKey, lookupKey, Ne.symm h]
  | cons hd tl ih =>
      obtain ⟨k', w⟩ := hd
      by_cases hk : k' = k
      · subst hk
        simp [setKey, lookupKey, Ne.symm h]
      · simp only [setKey, if_neg hk, lookupKey]
        by_cases hk2 : k' = key <;> simp [hk2, ih]

theorem lookupKey_deleteKey_self {α : Type} (m : List (String × α)) (k : String) :
    lookupKey (deleteKey m k) k = none := by
  induction m with
  | nil => simp [deleteKey, lookupKey]
  | cons hd tl ih =>
      obtain ⟨k', w⟩ := hd
      by_cases h : k' = k <;> simp [deleteKey, lookupKey, h, ih]

theorem countKey_zero_of_lookup_none {α : Type} (m : List (String × α)) (k : String)
    (h : lookupKey m k = none) : countKey m k = 0 := by
  induction m with
  | nil => simp [countKey]
  | cons hd tl ih =>
      obtain ⟨k', w⟩ := hd
      by_cases hk : k' = k
      · simp [lookupKey, hk] at h
      · simp only [lookupKey, if_neg hk] at h
        simp [countKey, hk, ih h]

theorem countKey_setKey_of_lookup_none {α : Type} (m : List (String × α)) (k : String)
    (v : α) (h : lookupKey m k = none) : countKey (setKey m k v) k = 1 := by
  induction m with
  | nil => simp [setKey, countKey]
  | cons hd tl ih =>
      obtain ⟨k', w⟩ := hd
      by_cases hk : k' = k
      · simp [lookupKey, hk] at h
      · simp only [lookupKey, if_neg hk] at h
        simp [setKey, countKey, hk, ih h]

/-- The per-session virtual file registry (source line 38:
`type FilesMap = ts.Map<{ version: number, text: string }>`). -/
abbrev FilesMap := List (String × FileRecord)

/-- The file system, as seen through `statSync` and `readFileSync`:
`some text` when the path is a readable file, `none` otherwise. -/
abbrev Disk := String → Option String

/-- Embedding of `fileExists` (source lines 248-254): `statSync` succeeds
and reports a file exactly when the disk map holds text for the path. -/
def fileExists (disk : Disk) (fileName : String) : Bool :=
  (disk fileName).isSome

/-- Embedding of `isDefinition` (source lines 314-316): the regular
expression test `/\.d\.ts$/` is a suffix test for `.d.ts`, stated over the
character list of the path. -/
def isDefinition (fileName : String) : Bool :=
  ".d.ts".data.isSuffixOf fileName.data

/-- Embedding of the registry update performed at the top of `loader`
(source lines 62-73): look the path up, create `{ version: 0, text: '' }`
when absent, then set `file.text = content` and run `file.version++`. -/
def loaderUpdate (files : FilesMap) (fileName content : String) : FilesMap :=
  let file := match lookupKey files fileName with
    | some f => f
    | none => { version := 0, text := "" }
  setKey files fileName { version := file.version + 1, text := content }

/-- The version currently stored for a path, with absent paths read as the
creation version 0 (source line 69 creates `{ version: 0, text: '' }`). -/
def storedVersion (files : FilesMap) (fileName : String) : Nat :=
  match lookupKey files fileName with
  | some f => f.version
  | none => 0

/-- C1: every compile-request text update (the registry mutation at lines
62-73 of the source) stores exactly the previous version plus one — with a
record created at version 0 on first sight, so the first request stores
version 1 — for every content, identical text included; in particular the
stored version strictly increases and never decreases. -/
theorem loaderUpdate_version_succ (files : FilesMap) (fileName content : String) :
    lookupKey (loaderUpdate files fileName content) fileName
        = some { version := storedVersion files fileName + 1, text := content } ∧
      storedVersion files fileName
        < storedVersion (loaderUpdate files fileName content) fileName := by
  have hset :
      lookupKey (loaderUpdate files fileName content) fileName
        = some { version := storedVersion files fileName + 1, text := content } := by
    unfold loaderUpdate storedVersion
    cases h : lookupKey files fileName <;>
      simp [h, lookupKey_setKey_self]
  refine ⟨hset, ?_⟩
  have h2 : storedVersion (loaderUpdate files fileName content) fileName
      = storedVersion files fileName + 1 := by
    simp [storedVersion, hset]
  rw [h2]
  exact Nat.lt_succ_self _

/-- Result of one `getScriptSnapshot` host call: the snapshot text handed
to the compiler (`none` models the `undefined` returns), the registry
afterwards, and the `addDependency` calls made on the in-flight loader. -/
structure SnapResult where
  snapshot : Option String
  files : FilesMap
  deps : List String
deriving Repr, DecidableEq

/-- Embedding of the host method `getScriptSnapshot` (source lines
167-194). The source first computes `exists = fileExists(fileName)`, then
consults `files`. When the path exists on disk: an unregistered path is
read from disk (`readFileSync`) and registered at version 0 — the
try/catch around the read cannot fire here because `statSync` and
`readFileSync` read the same `disk` map — then, if a loader is in flight
and the path is a definition file, `addDependency(fileName)` fires, and
the snapshot of the stored text is returned. When the path does not exist
on disk the registry binding is deleted and the function returns
`undefined`. `hasLoader` models whether `currentLoader` is set. -/
def getScriptSnapshot (disk : Disk) (hasLoader : Bool) (files : FilesMap)
    (fileName : String) : SnapResult :=
  match disk fileName with
  | some diskText =>
      let (file, files1) :=
        match lookupKey files fileName with
        | some f => (f, files)
        | none =>
            let f : FileRecord := { version := 0, text := diskText }
            (f, setKey files fileName f)
      let deps := if hasLoader && isDefinition fileName then [fileName] else []
      { snapshot := some file.text, files := files1, deps := deps }
  | none =>
      { snapshot := none, files := deleteKey files fileName, deps := [] }

/-- A disk with no files at all, for concrete evaluation. -/
def diskEmpty : Disk := fun _ => none

/-- A registry holding one record for `/p/x.ts`, for concrete evaluation. -/
def filesHello : FilesMap := [("/p/x.ts", { version := 1, text := "hello" })]

/-- C2 counterexample: `/p/x.ts` has a FileRecord with text `hello` in the
registry, yet with the file absent from disk `getScriptSnapshot` returns
absent, not the stored text — the existence check runs before the registry
is consulted, so a registered file's snapshot does depend on whether the
file exists on disk, refuting the claim as stated. -/
theorem getScriptSnapshot_registered_not_on_disk :
    lookupKey filesHello "/p/x.ts" = some { version := 1, text := "hello" } ∧
      (getScriptSnapshot diskEmpty false filesHello "/p/x.ts").snapshot ≠ some "hello" ∧
      (getScriptSnapshot diskEmpty false filesHello "/p/x.ts").snapshot = none := by
  refine ⟨rfl, ?_, rfl⟩
  decide

/-- C2 amended: for every path that has a FileRecord in the registry AND
currently exists on disk, `getScriptSnapshot` returns the stored record's
text (without re-reading or changing the registry); when the registered
path is absent from disk, the existence check wins: the snapshot is absent
and the record is deleted. -/
theorem getScriptSnapshot_registered (disk : Disk) (hasLoader : Bool)
    (files : FilesMap) (p : String) (r : FileRecord)
    (hreg : lookupKey files p = some r) :
    (∀ t, disk p = some t →
      (getScriptSnapshot disk hasLoader files p).snapshot = some r.text ∧
        (getScriptSnapshot disk hasLoader files p).files = files) ∧
      (disk p = none →
        (getScriptSnapshot disk hasLoader files p).snapshot = none ∧
          lookupKey (getScriptSnapshot disk hasLoader files p).files p = none) := by
  constructor
  · intro t hdisk
    simp [getScriptSnapshot, hdisk, hreg]
  · intro hdisk
    simp [getScriptSnapshot, hdisk, lookupKey_deleteKey_self]

/-- C2 amended witness at a concrete registry and one-file disk. -/
theorem getScriptSnapshot_registered_witness :
    (getScriptSnapshot (fun p => if p = "/p/x.ts" then some "on disk" else none)
        false filesHello "/p/x.ts").snapshot = some "hello" :=
  ((getScriptSnapshot_registered
      (fun p => if p = "/p/x.ts" then some "on disk" else none)
      false filesHello "/p/x.ts" { version := 1, text := "hello" } (by decide)).1
    "on disk" (by decide)).1

/-- C4: for a path that has no FileRecord and is absent from disk,
`getScriptSnapshot` returns absent — never empty text — and afterwards the
registry holds no entry for the path (the `delete files[fileName]` branch;
with no prior entry the deletion is a no-op). -/
theorem getScriptSnapshot_absent (disk : Disk) (hasLoader : Bool)
    (files : FilesMap) (p : String)
    (_hreg : lookupKey files p = none) (hdisk : disk p = none) :
    (getScriptSnapshot disk hasLoader files p).snapshot = none ∧
      (getScriptSnapshot disk hasLoader files p).snapshot ≠ some "" ∧
      (getScriptSnapshot disk hasLoader files p).files = deleteKey files p ∧
      lookupKey (getScriptSnapshot disk hasLoader files p).files p = none := by
  refine ⟨?_, ?_, ?_, ?_⟩ <;>
    simp [getScriptSnapshot, hdisk, lookupKey_deleteKey_self]

/-- C4 witness on the empty registry and empty disk. -/
theorem getScriptSnapshot_absent_witness :
    (getScriptSnapshot diskEmpty false [] "/p/missing.ts").snapshot = none :=
  (getScriptSnapshot_absent diskEmpty false [] "/p/missing.ts" rfl rfl).1

/-- C5: resolving a never-before-seen on-disk path twice returns the disk
text both times, registers exactly one FileRecord for the path, at version
0, and the second call leaves the registry unchanged (cache hit, no
duplicate and no re-read). -/
theorem getScriptSnapshot_idempotent (disk : Disk) (hl1 hl2 : Bool)
    (files : FilesMap) (p t : String)
    (hreg : lookupKey files p = none) (hdisk : disk p = some t) :
    (getScriptSnapshot disk hl1 files p).snapshot = some t ∧
      lookupKey (getScriptSnapshot disk hl1 files p).files p
        = some { version := 0, text := t } ∧
      countKey (getScriptSnapshot disk hl1 files p).files p = 1 ∧
      (getScriptSnapshot disk hl2 (getScriptSnapshot disk hl1 files p).files p).snapshot
        = some t ∧
      (getScriptSnapshot disk hl2 (getScriptSnapshot disk hl1 files p).files p).files
        = (getScriptSnapshot disk hl1 files p).files := by
  have h1 : (getScriptSnapshot disk hl1 files p).files
      = setKey files p { version := 0, text := t } := by
    simp [getScriptSnapshot, hdisk, hreg]
  have hsnap1 : (getScriptSnapshot disk hl1 files p).snapshot = some t := by
    simp [getScriptSnapshot, hdisk, hreg]
  have hlook : lookupKey (getScriptSnapshot disk hl1 files p).files p
      = some { version := 0, text := t } := by
    rw [h1]; exact lookupKey_setKey_self files p _
  refine ⟨hsnap1, hlook, ?_, ?_, ?_⟩
  · rw [h1]; exact countKey_setKey_of_lookup_none files p _ hreg
  · rw [h1]
    simp [getScriptSnapshot, hdisk, lookupKey_setKey_self]
  · rw [h1]
    simp [getScriptSnapshot, hdisk, lookupKey_setKey_self]

/-- C5 witness: a fresh path on a one-file disk, resolved twice. -/
theorem getScriptSnapshot_idempotent_witness :
    (getScriptSnapshot (fun p => if p = "/p/new.ts" then some "fresh" else none)
        false [] "/p/new.ts").snapshot = some "fresh" :=
  (getScriptSnapshot_idempotent
      (fun p => if p = "/p/new.ts" then some "fresh" else none)
      false false [] "/p/new.ts" "fresh" rfl (by decide)).1

/-- Embedding of the body of the `watch-run` plugin's `forEach` over the
changed paths (source lines 212-221): for one changed `fileName`, when a
FileRecord exists and the path is a definition file, `readFileSync` is
re-run — it throws (modelled by `Except.error`) when the path is no longer
readable — the text is replaced and `file.version++` runs; every other
changed path leaves the registry untouched. -/
def watchRunStep (disk : Disk) (files : FilesMap) (fileName : String) :
    Except String FilesMap :=
  match lookupKey files fileName with
  | some file =>
      if isDefinition fileName then
        match disk fileName with
        | some t =>
            .ok (setKey files fileName { version := file.version + 1, text := t })
        | none => .error (fileName ++ ": ENOENT")
      else .ok files
  | none => .ok files

/-- Embedding of the whole `watch-run` plugin (source lines 209-224):
fold the per-path body over the keys of the reported `mtimes` map; the
callback `cb()` runs only when no read threw. -/
def watchRun (disk : Disk) (files : FilesMap) (changed : List String) :
    Except String FilesMap :=
  changed.foldlM (watchRunStep disk) files

/-- C3: when a change notification names path P, if P has a FileRecord and
P is a definition file (and its text is readable from disk, which a change
notification presupposes), the record's text is re-read from disk and its
version becomes strictly greater than before — all before the plugin
yields via `cb()`, hence before the next compile request is served; a
changed path with no FileRecord, or one that is not a definition file,
leaves the registry untouched. -/
theorem watchRunStep_refreshes (disk : Disk) (files : FilesMap) (p : String) :
    (∀ r t, lookupKey files p = some r → isDefinition p = true → disk p = some t →
      ∃ files2, watchRunStep disk files p = .ok files2 ∧
        ∃ r2, lookupKey files2 p = some r2 ∧ r2.text = t ∧ r.version < r2.version) ∧
      (lookupKey files p = none → watchRunStep disk files p = .ok files) ∧
      (isDefinition p = false → watchRunStep disk files p = .ok files) := by
  refine ⟨?_, ?_, ?_⟩
  · intro r t hreg hdef hdisk
    refine ⟨setKey files p { version := r.version + 1, text := t }, ?_, ?_⟩
    · simp [watchRunStep, hreg, hdef, hdisk]
    · exact ⟨{ version := r.version + 1, text := t },
        lookupKey_setKey_self files p _, rfl, Nat.lt_succ_self _⟩
  · intro hreg
    simp [watchRunStep, hreg]
  · intro hdef
    cases hreg : lookupKey files p <;> simp [watchRunStep, hreg, hdef]

/-- C3 witness: a registered definition file refreshed from a one-file
disk. -/
theorem watchRunStep_refreshes_witness :
    ∃ files2,
      watchRunStep (fun p => if p = "/p/a.d.ts" then some "new text" else none)
          [("/p/a.d.ts", { version := 3, text := "old text" })] "/p/a.d.ts"
        = .ok files2 ∧
      ∃ r2, lookupKey files2 "/p/a.d.ts" = some r2 ∧ r2.text = "new text" ∧
        (3 : Nat) < r2.version :=
  (watchRunStep_refreshes (fun p => if p = "/p/a.d.ts" then some "new text" else none)
      [("/p/a.d.ts", { version := 3, text := "old text" })] "/p/a.d.ts").1
    { version := 3, text := "old text" } "new text" (by decide) (by decide) (by decide)

/-- Output of `service.getEmitOutput`: the `emitSkipped` flag and the
texts of the `outputFiles` array (with source maps enabled the compiler
puts the map text at index 0 and the JavaScript text at index 1). -/
structure EmitOutput where
  emitSkipped : Bool
  outputFiles : List String
deriving Repr, DecidableEq

/-- The source-map object of the source (lines 27-31): the three fields
the loader overwrites, plus `payload` standing for everything else
`JSON.parse` recovered from the emitted map text. -/
structure SourceMap where
  sources : List String
  file : String
  sourcesContent : List String
  payload : String
deriving Repr, DecidableEq

/-- Outcome of one `loader` call, i.e. which `loader.callback` overload
ran: `failure` is `callback(new Error(message))`, `success` is
`callback(null, contents, sourceMap)`, and `crash` models a thrown
`TypeError` from indexing past the end of `outputFiles` (the callback
never runs). -/
inductive LoaderOutcome where
  | crash : LoaderOutcome
  | failure : String → LoaderOutcome
  | success : String → Option SourceMap → LoaderOutcome
deriving Repr, DecidableEq

/-- The language service as the session sees it: from the registry state
and the requested file name, `getEmitOutput` produces an `EmitOutput` and
may itself mutate the registry (through the host `getScriptSnapshot`
calls it triggers). Opaque: the compiler package is external. -/
abbrev Service := FilesMap → String → EmitOutput × FilesMap

/-- The source-map rewrite of source lines 88-91: overwrite `sources`,
`file` and `sourcesContent` of the parsed map. -/
def fixSourceMap (sm : SourceMap) (fileName content : String) : SourceMap :=
  { sm with sources := [fileName], file := fileName, sourcesContent := [content] }

/-- Embedding of `loader` (source lines 58-95): bump the registry entry
for the requested path (lines 62-73), ask the service for emit output,
fail with `fileName: File not found` when `emitSkipped` is set, otherwise
take the text at index 1 (source maps on) or 0 (off), and with source maps
on parse the map text at index 0 and overwrite its `sources`, `file` and
`sourcesContent` fields before succeeding. `parse` models `JSON.parse`. -/
def loader (svc : Service) (parse : String → SourceMap) (sourceMapFlag : Bool)
    (fileName content : String) (files : FilesMap) : LoaderOutcome × FilesMap :=
  let files1 := loaderUpdate files fileName content
  let (output, files2) := svc files1 fileName
  if output.emitSkipped then
    (.failure (fileName ++ ": File not found"), files2)
  else
    match output.outputFiles.get? (if sourceMapFlag then 1 else 0) with
    | none => (.crash, files2)
    | some result =>
        if sourceMapFlag then
          match output.outputFiles.get? 0 with
          | none => (.crash, files2)
          | some mapText =>
              (.success result (some (fixSourceMap (parse mapText) fileName content)),
                files2)
        else
          (.success result none, files2)

/-- C6: when the service reports `emitSkipped` for the build target the
request fails through the error callback with the single message
`fileName: File not found` and no output text; when emission is not
skipped (and the service produced the output file the loader indexes,
which a non-skipped emit does), the request succeeds with that emitted
text and no error. -/
theorem loader_emit_outcome (svc : Service) (parse : String → SourceMap)
    (sourceMapFlag : Bool) (fileName content : String) (files : FilesMap) :
    ((svc (loaderUpdate files fileName content) fileName).1.emitSkipped = true →
      (loader svc parse sourceMapFlag fileName content files).1
        = .failure (fileName ++ ": File not found")) ∧
      ((svc (loaderUpdate files fileName content) fileName).1.emitSkipped = false →
        ∀ result,
          (svc (loaderUpdate files fileName content) fileName).1.outputFiles.get?
              (if sourceMapFlag then 1 else 0) = some result →
          ∃ sm, (loader svc parse sourceMapFlag fileName content files).1
            = .success result sm) := by
  rcases hsvc : svc (loaderUpdate files fileName content) fileName with ⟨output, files2⟩
  cases sourceMapFlag with
  | false =>
      refine ⟨?_, ?_⟩
      · intro hskip
        simp only [] at hskip
        simp [loader, hsvc, hskip]
      · intro hskip result hget
        simp only [] at hskip
        simp at hget
        exact ⟨none, by simp [loader, hsvc, hskip, hget]⟩
  | true =>
      refine ⟨?_, ?_⟩
      · intro hskip
        simp only [] at hskip
        simp [loader, hsvc, hskip]
      · intro hskip result hget
        simp only [] at hskip
        simp at hget
        obtain ⟨mapText, h0⟩ : ∃ mapText, output.outputFiles[0]? = some mapText := by
          rcases houts : output.outputFiles with _ | ⟨a, rest⟩
          · rw [houts] at hget
            simp at hget
          · exact ⟨a, by simp [houts]⟩
        exact ⟨some (fixSourceMap (parse mapText) fileName content),
          by simp [loader, hsvc, hskip, hget, h0]⟩

/-- A service for concrete evaluation: never skips, emits a map text and a
code text, and does not touch the registry. -/
def svcOk : Service := fun fs _ =>
  ({ emitSkipped := false, outputFiles := ["mapdata", "var x = 1;"] }, fs)

/-- A service for concrete evaluation that always reports a skipped
emit. -/
def svcSkip : Service := fun fs _ =>
  ({ emitSkipped := true, outputFiles := [] }, fs)

/-- A parse stub for concrete evaluation: ignores the three fields the
loader overwrites and keeps the raw text as payload. -/
def parseStub : String → SourceMap := fun s =>
  { sources := ["emitted.ts"], file := "emitted.js",
    sourcesContent := ["emitted content"], payload := s }

/-- C6 witness: a skipped emit fails with the File-not-found message at a
concrete request. -/
theorem loader_emit_outcome_witness :
    (loader svcSkip parseStub false "/p/a.ts" "let x = 1" []).1
      = .failure ("/p/a.ts" ++ ": File not found") :=
  (loader_emit_outcome svcSkip parseStub false "/p/a.ts" "let x = 1" []).1 (by decide)

/-- C10: on a successful compile with source maps enabled, the returned
source-map object has `sources` equal to the singleton of the build
target's path, `file` equal to that path, and `sourcesContent` equal to
the singleton of the request's input text, for every value `JSON.parse`
returned for those fields. -/
theorem loader_sourceMap_fixup (svc : Service) (parse : String → SourceMap)
    (fileName content : String) (files : FilesMap) (result mapText : String)
    (hskip : (svc (loaderUpdate files fileName content) fileName).1.emitSkipped = false)
    (h1 : (svc (loaderUpdate files fileName content) fileName).1.outputFiles.get? 1
      = some result)
    (h0 : (svc (loaderUpdate files fileName content) fileName).1.outputFiles.get? 0
      = some mapText) :
    ∃ sm, (loader svc parse true fileName content files).1
        = .success result (some sm) ∧
      sm.sources = [fileName] ∧ sm.file = fileName ∧
      sm.sourcesContent = [content] := by
  rcases hsvc : svc (loaderUpdate files fileName content) fileName with ⟨output, files2⟩
  rw [hsvc] at hskip h1 h0
  simp only [] at hskip
  simp at h1 h0
  refine ⟨fixSourceMap (parse mapText) fileName content, ?_, ?_, ?_, ?_⟩
  · simp [loader, hsvc, hskip, h1, h0]
  · simp [fixSourceMap]
  · simp [fixSourceMap]
  · simp [fixSourceMap]

/-- C10 witness: at a concrete request the emitted code is returned and
the parsed map fields are overwritten with the target path and input
text. -/
theorem loader_sourceMap_fixup_witness :
    ∃ sm, (loader svcOk parseStub true "/p/a.ts" "let x = 1" []).1
        = .success "var x = 1;" (some sm) ∧
      sm.sources = ["/p/a.ts"] ∧ sm.file = "/p/a.ts" ∧
      sm.sourcesContent = ["let x = 1"] :=
  loader_sourceMap_fixup svcOk parseStub "/p/a.ts" "let x = 1" []
    "var x = 1;" "mapdata" (by decide) (by decide) (by decide)

/-- The `messageText` of a compiler diagnostic: either a plain string or a
nested chain of causes (`DiagnosticMessageChain`: a string plus an
optional next link). -/
inductive MessageText where
  | str : String → MessageText
  | chain : String → Option MessageText → MessageText

/-- Modelled from the spec: `ts.flattenDiagnosticMessageText` lives in the
external TypeScript compiler package, not in this repository; the spec
describes it as flattening a nested message chain into one string joined
by newlines, and the source passes the newline as the separator (source
line 260). -/
def flattenDiagnosticMessageText : MessageText → String
  | .str s => s
  | .chain s none => s
  | .chain s (some next) => s ++ "\n" ++ flattenDiagnosticMessageText next

/-- The slice of a compiler `SourceFile` the translator uses: its name and
its offset-to-position index (`getLineAndCharacterOfPosition`, 0-based),
kept opaque as a function. -/
structure SourceFile where
  fileName : String
  getLineAndCharacterOfPosition : Nat → Nat × Nat

/-- The slice of a compiler diagnostic the translator uses: the optional
source file, the 0-based character offset `start`, and the message text. -/
structure Diagnostic where
  file : Option SourceFile
  start : Nat
  messageText : MessageText

/-- Embedding of `formatDiagnostic` (source lines 259-269): flatten the
message; with a source file, convert the offset through the file's own
index and prefix the 1-based `(line,column)` pair; otherwise return the
bare message. -/
def formatDiagnostic (d : Diagnostic) : String :=
  let message := flattenDiagnosticMessageText d.messageText
  match d.file with
  | some f =>
      let lc := f.getLineAndCharacterOfPosition d.start
      "(" ++ toString (lc.1 + 1) ++ "," ++ toString (lc.2 + 1) ++ "): " ++ message
  | none => message

/-- C7: a diagnostic whose source file maps the 0-based offset to 0-based
line l and character c formats exactly as the 1-based pair
`(l+1,c+1): message` with the flattened (newline-joined) message; a
diagnostic without a source file formats as the bare flattened message. -/
theorem formatDiagnostic_spec (d : Diagnostic) :
    (∀ f l c, d.file = some f →
      f.getLineAndCharacterOfPosition d.start = (l, c) →
      formatDiagnostic d
        = "(" ++ toString (l + 1) ++ "," ++ toString (c + 1) ++ "): "
            ++ flattenDiagnosticMessageText d.messageText) ∧
      (d.file = none →
        formatDiagnostic d = flattenDiagnosticMessageText d.messageText) := by
  constructor
  · intro f l c hf hlc
    simp [formatDiagnostic, hf, hlc]
  · intro hf
    simp [formatDiagnostic, hf]

/-- A concrete source file whose index maps every offset to line 1,
character 4 (0-based). -/
def fEx : SourceFile :=
  { fileName := "/p/a.ts", getLineAndCharacterOfPosition := fun _ => (1, 4) }

/-- A concrete positioned diagnostic with a two-link message chain. -/
def dEx : Diagnostic :=
  { file := some fEx, start := 10,
    messageText := .chain "boom" (some (.str "cause")) }

/-- C7 witness: the concrete diagnostic formats with the 1-based pair in
front of the flattened chain. -/
theorem formatDiagnostic_spec_witness :
    formatDiagnostic dEx
      = "(" ++ toString (1 + 1) ++ "," ++ toString (4 + 1) ++ "): "
          ++ flattenDiagnosticMessageText dEx.messageText :=
  (formatDiagnostic_spec dEx).1 fEx 1 4 rfl rfl

/-- Embedding of the `DiagosticError` value built at source lines 274-286
(the class name typo is the source's): `message` is the formatted
diagnostic and `file` is the context-relative rewritten path when the
diagnostic carries a file. -/
structure DiagosticError where
  name : String
  message : String
  file : Option String
deriving Repr, DecidableEq

/-- Builder for `DiagosticError` (source constructor lines 279-285);
`rel` models the external `urlToRequest(relative(context, fileName))`
path rewrite. -/
def mkDiagosticError (rel : String → String) (d : Diagnostic) : DiagosticError :=
  { name := "DiagnosticError", message := formatDiagnostic d,
    file := d.file.map (fun f => rel f.fileName) }

/-- The webpack `compilation` object as the emit plugin sees it: its
warning and error lists. -/
structure Compilation where
  warnings : List DiagosticError
  errors : List DiagosticError

/-- Embedding of the `emit` plugin (source lines 228-240): push a
`DiagosticError` for every semantic diagnostic of the program onto
`compilation.warnings`, then one for every syntactic diagnostic onto
`compilation.errors`. -/
def emitPlugin (rel : String → String) (semantic syntactic : List Diagnostic)
    (c : Compilation) : Compilation :=
  let c1 := semantic.foldl
    (fun comp d => { comp with warnings := comp.warnings ++ [mkDiagosticError rel d] }) c
  syntactic.foldl
    (fun comp d => { comp with errors := comp.errors ++ [mkDiagosticError rel d] }) c1

theorem foldl_push_warnings (rel : String → String) (ds : List Diagnostic)
    (c : Compilation) :
    ds.foldl
        (fun comp d => { comp with warnings := comp.warnings ++ [mkDiagosticError rel d] }) c
      = { c with warnings := c.warnings ++ ds.map (mkDiagosticError rel) } := by
  induction ds generalizing c with
  | nil => simp
  | cons hd tl ih => simp [List.foldl, ih]

theorem foldl_push_errors (rel : String → String) (ds : List Diagnostic)
    (c : Compilation) :
    ds.foldl
        (fun comp d => { comp with errors := comp.errors ++ [mkDiagosticError rel d] }) c
      = { c with errors := c.errors ++ ds.map (mkDiagosticError rel) } := by
  induction ds generalizing c with
  | nil => simp
  | cons hd tl ih => simp [List.foldl, ih]

/-- C8: collecting program-wide diagnostics appends exactly the semantic
diagnostics (as `DiagosticError` values) to the warning list and exactly
the syntactic diagnostics to the error list — so every semantic
diagnostic lands among the warnings, every syntactic one among the
errors, and neither kind crosses into the other list. -/
theorem emitPlugin_routes (rel : String → String)
    (semantic syntactic : List Diagnostic) (c : Compilation) :
    (emitPlugin rel semantic syntactic c).warnings
        = c.warnings ++ semantic.map (mkDiagosticError rel) ∧
      (emitPlugin rel semantic syntactic c).errors
        = c.errors ++ syntactic.map (mkDiagosticError rel) := by
  unfold emitPlugin
  rw [foldl_push_warnings, foldl_push_errors]
  constructor <;> simp

/-- The process-wide cache `loaderInstances` (source line 48), keyed by
instance id, restricted to the registry state each instance owns. -/
abbrev InstanceMap := List (String × FilesMap)

/-- Embedding of `getLoaderInstance` (source lines 294-309) restricted to
registry state: the id is `loader.options.context + loader.query`; a hit
returns the memoized instance and leaves the cache unchanged, a miss
creates an instance with a fresh empty files map and stores it. The
language service created alongside is opaque and owns no registry
state. -/
def getLoaderInstance (state : InstanceMap) (context query : String) :
    FilesMap × InstanceMap :=
  match lookupKey state (context ++ query) with
  | some inst => (inst, state)
  | none => ([], setKey state (context ++ query) [])

/-- One full compile request against the session keyed by
`context ++ query`: resolve or create the session, run `loader` on its
files map, and store the mutated map back (in the source the mutation is
in place on the shared `files` object). -/
def loaderRequest (svc : Service) (parse : String → SourceMap) (smFlag : Bool)
    (context query fileName content : String) (state : InstanceMap) :
    LoaderOutcome × InstanceMap :=
  let (files, state1) := getLoaderInstance state context query
  let (outcome, files2) := loader svc parse smFlag fileName content files
  (outcome, setKey state1 (context ++ query) files2)

/-- C9: sessions are memoized and isolated by configuration key
`context ++ query`: a lookup for a key with a memoized session returns
exactly that session and changes nothing; a compile request against one
key never changes the FileRecords stored under a distinct key; and the
outcome of a request depends only on the requesting key's own session
state, so a session never reveals another session's FileRecords — even
for identical paths and texts. -/
theorem session_isolation (svc : Service) (parse : String → SourceMap)
    (smFlag : Bool) (context query context2 query2 fileName content : String)
    (state state2 : InstanceMap) :
    (∀ inst, lookupKey state (context ++ query) = some inst →
      getLoaderInstance state context query = (inst, state)) ∧
      (context ++ query ≠ context2 ++ query2 →
        lookupKey
            (loaderRequest svc parse smFlag context query fileName content state).2
            (context2 ++ query2)
          = lookupKey state (context2 ++ query2)) ∧
      (lookupKey state (context ++ query) = lookupKey state2 (context ++ query) →
        (loaderRequest svc parse smFlag context query fileName content state).1
          = (loaderRequest svc parse smFlag context query fileName content state2).1) := by
  refine ⟨?_, ?_, ?_⟩
  · intro inst h
    simp [getLoaderInstance, h]
  · intro hne
    have hne2 : context2 ++ query2 ≠ context ++ query := Ne.symm hne
    cases h : lookupKey state (context ++ query) with
    | some inst =>
        simp [loaderRequest, getLoaderInstance, h, lookupKey_setKey_ne, hne2]
    | none =>
        simp [loaderRequest, getLoaderInstance, h, lookupKey_setKey_ne, hne2]
  · intro heq
    cases h : lookupKey state (context ++ query) with
    | some inst =>
        have h2 : lookupKey state2 (context ++ query) = some inst := by
          rw [← heq, h]
        simp [loaderRequest, getLoaderInstance, h, h2]
    | none =>
        have h2 : lookupKey state2 (context ++ query) = none := by
          rw [← heq, h]
        simp [loaderRequest, getLoaderInstance, h, h2]

/-- C9 witness: a request against the key `/ctx?q` leaves the (empty)
state under the distinct key `other` untouched. -/
theorem session_isolation_witness :
    lookupKey
        (loaderRequest svcOk parseStub false "/ctx" "?q" "/p/a.ts" "x" []).2
        ("other" ++ "")
      = lookupKey ([] : InstanceMap) ("other" ++ "") :=
  (session_isolation svcOk parseStub false "/ctx" "?q" "other" "" "/p/a.ts" "x"
      [] []).2.1 (by decide)

end TsLoader
